import Mathlib

/-!
Shallow embedding of `src/exutil.py` (module `exutil`): Python value model,
string similarity (`is_similar`), significant-digit counting
(`count_significant_digits`), worksheet search (`search_excl_val`),
coordinate decoding (`exc_coord_to_rc`) and range extraction
(`get_excl_sheet_vals`), together with theorems settling the claims
about this code.

Modelling conventions:
- Python machine floats are modelled as exact rationals; `str(float)` is
  modelled as the canonical positional decimal rendering (Python switches
  to exponent notation only for very large/small magnitudes, outside the
  range exercised here).
- `datetime.date` values are modelled as abstract ordinals (integers),
  `datetime.datetime` and `datetime.time` values as abstract rationals;
  equality never holds across distinct kinds, as in Python
  (in particular `date == datetime` is `False`).
- Python exceptions are modelled by `Except PyErr`.
-/

namespace ExUtil

deriving instance DecidableEq for Except

/-- Kind-level model of the Python exceptions raised by the code:
`TypeError`, `ValueError`, `IndexError` and `UnboundLocalError`. -/
inductive PyErr
  | typeError
  | valueError
  | indexError
  | unboundLocal
deriving DecidableEq, Repr

/-- Model of the Python runtime values that can appear as worksheet cell
values or search targets: `str`, `int`, `float`, `bool`, `datetime.date`,
`datetime.datetime`, `datetime.time`. -/
inductive PyVal
  | str (s : String)
  | int (n : ℤ)
  | float (q : ℚ)
  | bool (b : Bool)
  | date (ord : ℤ)
  | datetime (t : ℚ)
  | time (t : ℚ)
deriving DecidableEq, Repr

/-- Concrete Python type of a value, as returned by `type(x)`. -/
inductive PyType
  | strT
  | intT
  | floatT
  | boolT
  | dateT
  | datetimeT
  | timeT
deriving DecidableEq, Repr

/-- Python `type(v)`. -/
def pyType : PyVal → PyType
  | .str _ => .strT
  | .int _ => .intT
  | .float _ => .floatT
  | .bool _ => .boolT
  | .date _ => .dateT
  | .datetime _ => .datetimeT
  | .time _ => .timeT

/-- Python `isinstance(v, t)` for the concrete types above.  `bool` is a
subclass of `int` and `datetime.datetime` is a subclass of
`datetime.date`; no other subclass relations hold between these types. -/
def isinstanceB (v : PyVal) (t : PyType) : Bool :=
  pyType v = t ||
    (pyType v = PyType.boolT && t = PyType.intT) ||
    (pyType v = PyType.datetimeT && t = PyType.dateT)

/-- Python `isinstance(v, numbers.Number)`: true for `int`, `float`, `bool`. -/
def isNumber (v : PyVal) : Bool :=
  match v with
  | .int _ => true
  | .float _ => true
  | .bool _ => true
  | _ => false

/-- Numeric value of a Python number (`bool` counts as 0/1), `none` for
non-numbers.  Used for Python's cross-type numeric equality. -/
def pyNumQ? : PyVal → Option ℚ
  | .int n => some (n : ℚ)
  | .float q => some q
  | .bool b => some (if b then 1 else 0)
  | _ => none

/-- Python `==` on the modelled values: numbers compare by numeric value
across `int`/`float`/`bool`; all other comparisons hold only within one
kind (`date == datetime` is `False` in Python). -/
def pyEq (a b : PyVal) : Bool :=
  match pyNumQ? a, pyNumQ? b with
  | some x, some y => x = y
  | _, _ =>
    match a, b with
    | .str s, .str t => s = t
    | .date d, .date e => d = e
    | .datetime s, .datetime t => s = t
    | .time s, .time t => s = t
    | _, _ => false

/-! ## String similarity: `difflib.SequenceMatcher` model

`SequenceMatcher(None, a, b).ratio()` on short strings (no autojunk for
lengths below 200): repeatedly take the longest matching block, with ties
broken by the earliest start in `a` and then the earliest start in `b`,
recurse on both sides, and return `2 * M / (len a + len b)` where `M` is
the total matched length (`1` when both strings are empty). -/

/-- Length of the longest common prefix of two character lists. -/
def commonPrefixLen : List Char → List Char → ℕ
  | a :: as, b :: bs => if a = b then commonPrefixLen as bs + 1 else 0
  | _, _ => 0

/-- Length of the matching block of `a` at position `i` against `b` at
position `j`. -/
def matchLenAt (a b : List Char) (i j : ℕ) : ℕ :=
  commonPrefixLen (a.drop i) (b.drop j)

/-- Longest matching block `(i, j, size)` between `a` and `b`: maximal
size, ties broken by smallest `i`, then smallest `j` (difflib's
`find_longest_match` contract). Returns size 0 when there is no match. -/
def longestMatch (a b : List Char) : ℕ × ℕ × ℕ :=
  (List.range a.length).foldl
    (fun best i =>
      (List.range b.length).foldl
        (fun best2 j =>
          let k := matchLenAt a b i j
          if best2.2.2 < k then (i, j, k) else best2)
        best)
    (0, 0, 0)

/-- Total matched length, fuelled recursion mirroring difflib's
`get_matching_blocks` (each recursive call strictly shrinks the `a` side,
so fuel `a.length + 1` is always sufficient). -/
def matchTotalAux : ℕ → List Char → List Char → ℕ
  | 0, _, _ => 0
  | fuel + 1, a, b =>
    let ijk := longestMatch a b
    let i := ijk.1
    let j := ijk.2.1
    let k := ijk.2.2
    if k = 0 then 0
    else
      matchTotalAux fuel (a.take i) (b.take j) + k +
        matchTotalAux fuel (a.drop (i + k)) (b.drop (j + k))

/-- Total matched length between two character lists. -/
def matchTotal (a b : List Char) : ℕ :=
  matchTotalAux (a.length + 1) a b

/-- Model of `SequenceMatcher(None, a, b).ratio()` as an exact rational. -/
def ratioQ (a b : String) : ℚ :=
  let la := a.toList.length
  let lb := b.toList.length
  if la + lb = 0 then 1
  else (2 * (matchTotal a.toList b.toList) : ℚ) / (la + lb)

/-- Python `str.strip()` (default whitespace stripping). -/
def pyStrip (s : String) : String :=
  String.mk
    (((s.toList.dropWhile Char.isWhitespace).reverse.dropWhile
        Char.isWhitespace).reverse)

/-! ## Python `str()` of numbers -/

/-- Multiplicity of a prime-like factor `p` in `n` (fuelled; fuel `n` is
sufficient since each division step at least halves `n`). -/
def factorMultAux : ℕ → ℕ → ℕ → ℕ
  | 0, _, _ => 0
  | fuel + 1, p, n =>
    if 2 ≤ p ∧ n ≠ 0 ∧ n % p = 0 then factorMultAux fuel p (n / p) + 1 else 0

/-- Multiplicity of `p` in `n`. -/
def factorMult (p n : ℕ) : ℕ := factorMultAux n p n

/-- Decimal digit characters of a natural number, most significant first. -/
def natDigitsStr (n : ℕ) : String :=
  String.mk ((Nat.toDigits 10 n))

/-- Model of Python `str(x)` for a float modelled by the exact rational
`q`: the canonical positional decimal rendering with at least one digit on
each side of the point (`str(3.0) = "3.0"`, `str(0.001) = "0.001"`).
Rationals outside the decimal-representable image of the floats fall back
to `"0.0"`; they are not the image of any Python float. -/
def floatStr (q : ℚ) : String :=
  let d := q.den
  let a := factorMult 2 d
  let b := factorMult 5 d
  if 2 ^ a * 5 ^ b = d then
    let k := max a b
    let m := (q.num * (10 : ℤ) ^ k / (d : ℤ)).natAbs
    let ds := Nat.toDigits 10 m
    let ds2 := List.replicate (k + 1 - ds.length) '0' ++ ds
    let intPart := String.mk (ds2.take (ds2.length - k))
    let fracPart := if k = 0 then "0" else String.mk (ds2.drop (ds2.length - k))
    (if q.num < 0 then "-" else "") ++ intPart ++ "." ++ fracPart
  else "0.0"

/-- Model of Python `str(v)`.  The renderings of `date`, `datetime` and
`time` values are modelled (those values are abstract in this embedding);
they are only ever fed to the string-similarity scorer, never parsed. -/
def pyStr : PyVal → String
  | .str s => s
  | .int n => toString n
  | .float q => floatStr q
  | .bool b => if b then "True" else "False"
  | .date d => "date " ++ toString d
  | .datetime t => "datetime " ++ toString t.num ++ "/" ++ toString t.den
  | .time t => "time " ++ toString t.num ++ "/" ++ toString t.den

/-! ## `is_similar` (src/exutil.py lines 86-157) -/

/-- Shape of the `test` argument of `is_similar`: a `str`, a Python
number, a `list` or `numpy.ndarray` of strings, a `tuple` of strings, or
anything else.  `list` and `ndarray` behave identically in the source and
share one constructor. -/
inductive SimTest
  | str (s : String)
  | num (v : PyVal)
  | list (xs : List String)
  | tuple (xs : List String)
  | other
deriving DecidableEq, Repr

/-- Possible return values of `is_similar`. -/
inductive SimResult
  | bool (b : Bool)
  | pair (s : String) (score : ℚ)
  | nonePair
  | listPair (xs : List String) (scores : List ℚ)
deriving DecidableEq, Repr

/-- Accumulating loop of `is_similar` case 2 (lines 140-144): collect the
elements whose ratio meets the threshold together with their scores, in
encounter order. -/
def simLoop (target : String) (threshold : ℚ) :
    List String → List String → List ℚ → List String × List ℚ
  | [], accS, accR => (accS, accR)
  | s :: rest, accS, accR =>
    let similarity := ratioQ target s
    if threshold ≤ similarity then
      simLoop target threshold rest (accS ++ [s]) (accR ++ [similarity])
    else simLoop target threshold rest accS accR

/-- Model of `is_similar(target, test, threshold, return_similarrity_score)`
(lines 86-157).  The `target` is modelled post-coercion as a string (the
source applies `str(target)` first).  Type handling (lines 115-125): a
`list`/`ndarray` is converted element-wise by `str(.).strip()`, a `str` or
number is converted to a stripped string, and any other input — including
a `tuple` — raises `TypeError`.  Case 1 (lines 129-133) handles a single
string; case 2 (lines 136-148) a list with scores; case 3 (lines 151-152)
a list without scores. -/
def is_similar (target : String) (test : SimTest) (threshold : ℚ)
    (return_similarrity_score : Bool) : Except PyErr SimResult :=
  let target2 := pyStrip target
  match test with
  | .list xs =>
    let xs2 := xs.map pyStrip
    if return_similarrity_score then
      let res := simLoop target2 threshold xs2 [] []
      if res.1 ≠ [] then .ok (.listPair res.1 res.2) else .ok .nonePair
    else .ok (.bool (xs2.any (fun s => threshold ≤ ratioQ target2 s)))
  | .str s =>
    let s2 := pyStrip s
    let similarity := ratioQ target2 s2
    if return_similarrity_score then
      if threshold ≤ similarity then .ok (.pair s2 similarity) else .ok .nonePair
    else .ok (.bool (threshold ≤ similarity))
  | .num v =>
    let s2 := pyStrip (pyStr v)
    let similarity := ratioQ target2 s2
    if return_similarrity_score then
      if threshold ≤ similarity then .ok (.pair s2 similarity) else .ok .nonePair
    else .ok (.bool (threshold ≤ similarity))
  | .tuple _ => .error .typeError
  | .other => .error .typeError

/-! ## Decimal model and `count_significant_digits` (lines 164-193)

The source parses the input with `float(...)` (raising `ValueError` on
non-numeric strings) and `decimal.Decimal(...)`, normalizes, and compares
the normalized string rendering with the input string.  `Decimal` is
modelled by its `(sign, coefficient digits, exponent)` triple and its
documented `__str__` (the to-scientific-string conversion). -/

/-- Parsed finite decimal: sign, coefficient digits (leading zeros
stripped at parse, at least one digit), exponent. -/
structure DecNum where
  neg : Bool
  digits : List ℕ
  exp : ℤ
deriving DecidableEq, Repr

/-- Digit span helper: split off a maximal run of decimal digits. -/
def spanDigits (cs : List Char) : List ℕ × List Char :=
  ((cs.takeWhile Char.isDigit).map (fun c => c.toNat - 48),
    cs.dropWhile Char.isDigit)

/-- Natural number denoted by a digit list (most significant first). -/
def digitsToNat (ds : List ℕ) : ℕ :=
  ds.foldl (fun acc d => acc * 10 + d) 0

/-- Exponent-part parser: consumes an optional sign and a non-empty digit
run, returning the signed exponent and the leftovers, or `none`. -/
def parseExpPart (cs : List Char) : Option (ℤ × List Char) :=
  match cs with
  | '-' :: r =>
    let p := spanDigits r
    if p.1 = [] then none else some (-(digitsToNat p.1 : ℤ), p.2)
  | '+' :: r =>
    let p := spanDigits r
    if p.1 = [] then none else some ((digitsToNat p.1 : ℤ), p.2)
  | r =>
    let p := spanDigits r
    if p.1 = [] then none else some ((digitsToNat p.1 : ℤ), p.2)

/-- Parser for finite decimal literals `[+-]digits[.digits][(e|E)[+-]digits]`
(with at least one digit), the common grammar accepted by both `float(...)`
and `Decimal(...)`.  Leading zeros of the coefficient are stripped as in
`Decimal.as_tuple()`. -/
def parseDecimal (s : String) : Option DecNum :=
  let cs := s.toList
  let signSplit : Bool × List Char :=
    match cs with
    | '-' :: r => (true, r)
    | '+' :: r => (false, r)
    | _ => (false, cs)
  let neg := signSplit.1
  let ip := spanDigits signSplit.2
  let fp :=
    match ip.2 with
    | '.' :: r => spanDigits r
    | r => ([], r)
  if ip.1 = [] ∧ fp.1 = [] then none
  else
    let expRes : Option (ℤ × List Char) :=
      match fp.2 with
      | 'e' :: r => parseExpPart r
      | 'E' :: r => parseExpPart r
      | r => some (0, r)
    match expRes with
    | none => none
    | some er =>
      if er.2 ≠ [] then none
      else
        let allDigits := ip.1 ++ fp.1
        let stripped := allDigits.dropWhile (fun d => d = 0)
        let digits := if stripped = [] then [0] else stripped
        some ⟨neg, digits, er.1 - (fp.1.length : ℤ)⟩

/-- `Decimal.normalize()`: a zero becomes `0E+0`; otherwise trailing
zeros of the coefficient are stripped, raising the exponent accordingly. -/
def decNormalize (d : DecNum) : DecNum :=
  if d.digits.all (fun x => x = 0) then ⟨d.neg, [0], 0⟩
  else
    let rev := d.digits.reverse
    let z := (rev.takeWhile (fun x => x = 0)).length
    ⟨d.neg, (rev.drop z).reverse, d.exp + z⟩

/-- Digit list rendered as characters. -/
def digitsToStr (ds : List ℕ) : String :=
  String.mk (ds.map (fun d => Char.ofNat (48 + d)))

/-- Model of `str(Decimal(...))`: the to-scientific-string conversion of
the decimal specification, as implemented by Python's `Decimal.__str__`. -/
def decToStr (d : DecNum) : String :=
  let n : ℤ := d.digits.length
  let adj : ℤ := d.exp + n - 1
  let body :=
    if d.exp ≤ 0 ∧ -6 ≤ adj then
      if d.exp = 0 then digitsToStr d.digits
      else
        let pointPos : ℤ := n + d.exp
        if 0 < pointPos then
          digitsToStr (d.digits.take pointPos.toNat) ++ "." ++
            digitsToStr (d.digits.drop pointPos.toNat)
        else
          "0." ++ String.mk (List.replicate (-pointPos).toNat '0') ++
            digitsToStr d.digits
    else
      let head := digitsToStr (d.digits.take 1)
      let tail :=
        if 2 ≤ d.digits.length then "." ++ digitsToStr (d.digits.drop 1) else ""
      head ++ tail ++ "E" ++ (if 0 ≤ adj then "+" else "-") ++
        toString adj.natAbs
  (if d.neg then "-" else "") ++ body

/-- Number of trailing `'0'` characters of a string (what
`len(s) - len(s.rstrip('0'))` computes). -/
def trailingZeroCount (s : String) : ℕ :=
  (s.toList.reverse.takeWhile (fun c => c = '0')).length

/-- Character membership `c in s` (Python `'.' in number_str`). -/
def strContainsChar (s : String) (c : Char) : Bool :=
  s.toList.contains c

/-- Python `s.endswith(c)` for a one-character suffix: the last character
equals `c`. -/
def strEndsWithChar (s : String) (c : Char) : Bool :=
  match s.toList.getLast? with
  | some d => d = c
  | none => false

/-- Core computation of `count_significant_digits` (lines 188-193) once
parsing has succeeded: restore explicit trailing zeros dropped by
normalization (comparing the input and the normalized rendering), else
count the characters of the normalized rendering minus point and sign. -/
def countBody (number_str normalized_str : String) : ℕ :=
  if strContainsChar number_str '.' ∧ ¬ strEndsWithChar normalized_str '0' ∧
      strEndsWithChar number_str '0' then
    (normalized_str.toList.filter (fun c => c ≠ '.')).length +
      trailingZeroCount number_str
  else
    (normalized_str.toList.filter (fun c => c ≠ '.' ∧ c ≠ '-')).length

/-- Model of `count_significant_digits(number_str)` (lines 164-193) on a
string argument (the worksheet search always passes `str(target)`).  The
`float(number_str)` probe raises `ValueError` on strings that do not parse
as numbers; otherwise the count is computed from the input string and the
normalized `Decimal` rendering exactly as in the source. -/
def count_significant_digits (number_str : String) : Except PyErr ℕ :=
  match parseDecimal number_str with
  | none => .error .valueError
  | some d => .ok (countBody number_str (decToStr (decNormalize d)))

/-! ## Worksheet model and `search_excl_val` (lines 195-326) -/

/-- One worksheet cell: its Excel-style coordinate string and its value
(`none` models an empty cell, whose `cell.value` is Python `None`). -/
structure Cell where
  coord : String
  value : Option PyVal
deriving DecidableEq, Repr

/-- A worksheet, as consumed through `sheet.iter_rows(values_only=False)`:
a list of rows of cells, iterated in row-major order. -/
abbrev Sheet := List (List Cell)

/-- Row-major cell sequence of a sheet (the order `iter_rows` yields). -/
def sheetCells (sheet : Sheet) : List Cell := sheet.flatten

/-- Rounding of an integer-scaled value to the nearest integer, halves to
even — the rounding `numpy.round` applies. -/
def halfEven (q : ℚ) : ℤ :=
  let f := ⌊q⌋
  let r := q - f
  if r < 1 / 2 then f
  else if 1 / 2 < r then f + 1
  else if f % 2 = 0 then f else f + 1

/-- Model of `numpy.round(q, n)`: round to `n` decimal places, halves to
even, in exact rational arithmetic. -/
def np_round (q : ℚ) (n : ℕ) : ℚ :=
  (halfEven (q * 10 ^ n) : ℚ) / 10 ^ n

/-- Outcome of the nested scan loops of one dispatch branch: either an
early first-hit return or the two accumulated buckets.  Each bucket is
kept as a list of (coordinate, value) pairs: the source's two parallel
dict lists are always appended to together, so the dict is exactly the
unzipped pair list. -/
inductive LoopRes
  | hit (coord : String) (value : PyVal)
  | buckets (eqB simB : List (String × PyVal))
deriving DecidableEq, Repr

/-- Inner cell loop shared by the four dispatch branches: walk the cells
in row-major order; skip empty cells and cells rejected by `skip`; on an
equality hit either return immediately (`return_first_hit`) or append to
the equal bucket; feed every retained cell (with its equality outcome) to
`simP` for the similar bucket.  In the string branch `simP` is the
similarity test (evaluated also for equal cells, lines 240-243); in the
numeric/date/time branches it is the `else` of the equality test. -/
def innerScan (firstHit : Bool) (skip eqP : PyVal → Bool)
    (simP : PyVal → Bool → Bool) :
    List Cell → List (String × PyVal) → List (String × PyVal) → LoopRes
  | [], eqB, simB => .buckets eqB simB
  | c :: rest, eqB, simB =>
    match c.value with
    | none => innerScan firstHit skip eqP simP rest eqB simB
    | some v =>
      if skip v then innerScan firstHit skip eqP simP rest eqB simB
      else if eqP v then
        if firstHit then .hit c.coord v
        else
          innerScan firstHit skip eqP simP rest (eqB ++ [(c.coord, v)])
            (if simP v true then simB ++ [(c.coord, v)] else simB)
      else
        innerScan firstHit skip eqP simP rest eqB
          (if simP v false then simB ++ [(c.coord, v)] else simB)

/-- Parameters of one dispatch branch of `search_excl_val`: a per-target
preparation step run before that target's cell loop (the significant-digit
count of the numeric branch, line 258 — it may raise), the cell filter,
and the equality and similarity predicates, both given the prepared
target. -/
structure CaseParams where
  prep : PyVal → Except PyErr (PyVal × ℕ)
  skip : PyVal → Bool
  eqP : PyVal × ℕ → PyVal → Bool
  simP : PyVal × ℕ → PyVal → Bool → Bool

/-- Outer target loop shared by the four dispatch branches: for each
target run its preparation (propagating its exception), then the inner
cell loop, threading the buckets and propagating an early first-hit
return. -/
def outerScan (P : CaseParams) (firstHit : Bool) :
    List PyVal → List Cell → List (String × PyVal) →
      List (String × PyVal) → Except PyErr LoopRes
  | [], _, eqB, simB => .ok (.buckets eqB simB)
  | t :: ts, cells, eqB, simB =>
    match P.prep t with
    | .error e => .error e
    | .ok a =>
      match innerScan firstHit P.skip (P.eqP a) (P.simP a) cells eqB simB with
      | .hit c v => .ok (.hit c v)
      | .buckets eqB2 simB2 => outerScan P firstHit ts cells eqB2 simB2

/-- String branch (lines 229-251): skip empty, numeric, time and datetime
cells (a plain `date` cell falls through, as in the source); equality is
Python `==`; the similar bucket is driven by
`is_similar(target, str(cell.value), threshold)` for every retained cell. -/
def strParams (threshold : ℚ) : CaseParams :=
  ⟨fun t => .ok (t, 0),
    fun v => isNumber v || isinstanceB v .timeT || isinstanceB v .datetimeT,
    fun a v => pyEq v a.1,
    fun a v _ =>
      match is_similar (pyStr a.1) (.str (pyStr v)) threshold false with
      | .ok (.bool b) => b
      | _ => false⟩

/-- Numeric branch (lines 256-278): per target, compute
`count_significant_digits(str(target))` (line 258, may raise
`ValueError`); keep only numeric cells; a cell is equal when both sides
agree after `numpy.round` at that digit count; every retained non-equal
cell goes to the similar bucket. -/
def numParams : CaseParams :=
  ⟨fun t => (count_significant_digits (pyStr t)).map (fun n => (t, n)),
    fun v => ! isNumber v,
    fun a v =>
      np_round ((pyNumQ? v).getD 0) a.2 = np_round ((pyNumQ? a.1).getD 0) a.2,
    fun _ _ e => ! e⟩

/-- Date/datetime branch (lines 282-303): keep cells that are `datetime`
or `date` instances; equality is Python `==`; non-equal retained cells go
to the similar bucket. -/
def dateParams : CaseParams :=
  ⟨fun t => .ok (t, 0),
    fun v => ! (isinstanceB v .datetimeT || isinstanceB v .dateT),
    fun a v => pyEq v a.1,
    fun _ _ e => ! e⟩

/-- Time branch (lines 305-324): keep only `time` cells; equality is
Python `==`; non-equal retained cells go to the similar bucket. -/
def timeParams : CaseParams :=
  ⟨fun t => .ok (t, 0),
    fun v => ! isinstanceB v .timeT,
    fun a v => pyEq v a.1,
    fun _ _ e => ! e⟩

/-- Dispatch branch selected by the first search target, mirroring the
`if`/`elif` chain of lines 229, 256, 282, 305 (every modelled value falls
in one of the four branches; `bool` targets take the numeric branch via
`isinstance(_, numbers.Number)`). -/
inductive Kind
  | strK
  | numK
  | dateK
  | timeK
deriving DecidableEq, Repr

/-- Branch chosen for a given first target. -/
def dispatchKind (t0 : PyVal) : Kind :=
  if pyType t0 = PyType.strT then .strK
  else if isNumber t0 then .numK
  else if pyType t0 = PyType.dateT ∨ pyType t0 = PyType.datetimeT then .dateK
  else .timeK

/-- Branch parameters for a given dispatch branch. -/
def paramsOf (k : Kind) (threshold : ℚ) : CaseParams :=
  match k with
  | .strK => strParams threshold
  | .numK => numParams
  | .dateK => dateParams
  | .timeK => timeParams

/-- Possible return values of `search_excl_val`: a first-hit
`(coordinate, value)` pair; a dict of parallel coordinate/value lists; a
bare coordinate list (numeric branch, line 276); the `(None, None)`
sentinel; or Python `None` (the time branch falling off the end of the
function). -/
inductive SearchResult
  | hit (coord : String) (value : PyVal)
  | dict (coords : List String) (vals : List PyVal)
  | coords (cs : List String)
  | nonePair
  | pyNone
deriving DecidableEq, Repr

/-- End-of-scan return shaping of each branch, applied to the final
buckets:
string (lines 246-251): combined dict if `return_all_vals`, else the
equal dict if non-empty, else `(None, None)`;
numeric (lines 272-278): combined dict, else only the equal coordinate
list, else `(None, None)`;
date (lines 297-303): exactly as the string branch;
time (lines 319-324): equal dict if non-empty and not `return_all_vals`,
else combined dict if `return_all_vals`, else falls off the function —
Python `None`. -/
def shapeBuckets (k : Kind) (return_all_vals : Bool)
    (eqB simB : List (String × PyVal)) : SearchResult :=
  match k with
  | .strK =>
    if return_all_vals then
      .dict ((eqB ++ simB).map Prod.fst) ((eqB ++ simB).map Prod.snd)
    else if eqB ≠ [] then .dict (eqB.map Prod.fst) (eqB.map Prod.snd)
    else .nonePair
  | .numK =>
    if return_all_vals then
      .dict ((eqB ++ simB).map Prod.fst) ((eqB ++ simB).map Prod.snd)
    else if eqB ≠ [] then .coords (eqB.map Prod.fst)
    else .nonePair
  | .dateK =>
    if return_all_vals then
      .dict ((eqB ++ simB).map Prod.fst) ((eqB ++ simB).map Prod.snd)
    else if eqB ≠ [] then .dict (eqB.map Prod.fst) (eqB.map Prod.snd)
    else .nonePair
  | .timeK =>
    if eqB ≠ [] ∧ ¬ return_all_vals then
      .dict (eqB.map Prod.fst) (eqB.map Prod.snd)
    else if return_all_vals then
      .dict ((eqB ++ simB).map Prod.fst) ((eqB ++ simB).map Prod.snd)
    else .pyNone

/-- Scan outcome lifted to the function's return value: exceptions and
early first-hit returns pass through; final buckets are shaped per
branch. -/
def applyShape (k : Kind) (return_all_vals : Bool) :
    Except PyErr LoopRes → Except PyErr SearchResult
  | .error e => .error e
  | .ok (.hit c v) => .ok (.hit c v)
  | .ok (.buckets eqB simB) => .ok (shapeBuckets k return_all_vals eqB simB)

/-- Model of `search_excl_val(sheet, search_targets, threshold,
return_first_hit, return_all_vals)` (lines 195-326).  An empty target
sequence raises `IndexError` at `search_targets[0]` (line 221) before the
sheet is touched; a target that is not an instance of the first target's
type raises `TypeError` (lines 222-223); then the branch selected by the
first target's type scans the sheet target-major, row-major, and shapes
its result.  The final `else` (line 326) raises `ValueError` for an
unsupported target type. -/
def search_excl_val (sheet : Sheet) (search_targets : List PyVal)
    (threshold : ℚ) (return_first_hit : Bool) (return_all_vals : Bool) :
    Except PyErr SearchResult :=
  match search_targets with
  | [] => .error .indexError
  | t0 :: ts =>
    let sType := pyType t0
    if ¬ ((t0 :: ts).all (fun x => isinstanceB x sType)) then
      .error .typeError
    else
      let cells := sheetCells sheet
      if sType = PyType.strT then
        applyShape .strK return_all_vals
          (outerScan (strParams threshold) return_first_hit (t0 :: ts) cells [] [])
      else if isNumber t0 then
        applyShape .numK return_all_vals
          (outerScan numParams return_first_hit (t0 :: ts) cells [] [])
      else if sType = PyType.dateT ∨ sType = PyType.datetimeT then
        applyShape .dateK return_all_vals
          (outerScan dateParams return_first_hit (t0 :: ts) cells [] [])
      else if sType = PyType.timeT then
        applyShape .timeK return_all_vals
          (outerScan timeParams return_first_hit (t0 :: ts) cells [] [])
      else .error .valueError

/-! ## `exc_coord_to_rc` (lines 14-39) and `get_excl_sheet_vals` (lines 335-378) -/

/-- Bijective base-26 value of an uppercase letter run (A=1 … Z=26,
AA=27, …). -/
def lettersToCol (cs : List Char) : ℕ :=
  cs.foldl (fun acc c => acc * 26 + (c.toUpper.toNat - 64)) 0

/-- Model of `exc_coord_to_rc(cell_Coord)` (lines 14-39) on a string
argument.  An empty string raises `ValueError` (line 33); the openpyxl
helpers then require one to three letters followed by a positive integer,
with the column in the A..XFD range, and raise on anything else (modelled
uniformly as `ValueError`). -/
def exc_coord_to_rc (cell_Coord : String) : Except PyErr (ℤ × ℤ) :=
  let cs := cell_Coord.toList
  if cs = [] then .error .valueError
  else
    let letters := cs.takeWhile Char.isAlpha
    let digits := cs.drop letters.length
    if letters = [] ∨ 3 < letters.length ∨ digits = [] ∨
        ¬ digits.all Char.isDigit then .error .valueError
    else
      let row := digitsToNat (digits.map (fun c => c.toNat - 48))
      let col := lettersToCol letters
      if row = 0 ∨ 16384 < col then .error .valueError
      else .ok ((row : ℤ), (col : ℤ))

/-- Shape of a corner argument of `get_excl_sheet_vals`: a coordinate
string, a two-element tuple of Python values, or anything else. -/
inductive CoordArg
  | s (c : String)
  | pair (a b : PyVal)
  | other
deriving DecidableEq, Repr

/-- Python `isinstance(v, int)`: true for `int` and `bool`. -/
def isIntVal (v : PyVal) : Bool :=
  match v with
  | .int _ => true
  | .bool _ => true
  | _ => false

/-- Integer denoted by an `int`-instance value (`True` counts as 1). -/
def intOf (v : PyVal) : ℤ :=
  match v with
  | .int n => n
  | .bool b => if b then 1 else 0
  | _ => 0

/-- Corner parsing of `get_excl_sheet_vals` (lines 343-358, run once per
corner): a string goes through `exc_coord_to_rc` (propagating its
exception); a tuple assigns the row/column variables only when both
elements are `int` instances — otherwise they are left unassigned,
modelled as `none`; any other argument raises `TypeError`. -/
def parseCorner : CoordArg → Except PyErr (Option (ℤ × ℤ))
  | .s c => (exc_coord_to_rc c).map some
  | .pair a b =>
    if isIntVal a ∧ isIntVal b then .ok (some (intOf a, intOf b)) else .ok none
  | .other => .error .typeError

/-- Integer range `[a, b)` as a list, Python's `range(a, b)`. -/
def intRange (a b : ℤ) : List ℤ :=
  (List.range (b - a).toNat).map (fun i => a + (i : ℤ))

/-- Value of the cell at 1-based `(row, col)`, as the source reads
`sheet.cell(row, column).value`; positions outside the populated area
read as `None` (empty cells). -/
def cellValueAt (sheet : Sheet) (r c : ℤ) : Option PyVal :=
  if 1 ≤ r ∧ 1 ≤ c then
    match sheet.get? (r - 1).toNat with
    | some row =>
      match row.get? (c - 1).toNat with
      | some cell => cell.value
      | none => none
    | none => none
  else none

/-- Return shape of `get_excl_sheet_vals`: a 2-D array of row lists, or
the 1-D flattened array produced by `.ravel()` when the range collapses
(line 376-377). -/
inductive ExtractResult
  | arr2 (rows : List (List (Option PyVal)))
  | arr1 (vals : List (Option PyVal))
deriving DecidableEq, Repr

/-- Model of `get_excl_sheet_vals(sheet, start_Cord, end_Cord)`
(lines 335-378).  Corners are parsed in order (start then end); if a
tuple corner left its row/column variables unassigned, Python raises
`UnboundLocalError` at the first comparison `row_start > row_end`
(line 361).  Corner order is then normalized by swapping, and the values
of rows `[row_start, row_end)` (end-exclusive, line 373) by columns
`[col_start, col_end]` (end-inclusive, line 374) are collected in
row-major order; a collapsed range (equal rows or equal columns) is
flattened by `.ravel()`. -/
def get_excl_sheet_vals (sheet : Sheet) (start_Cord end_Cord : CoordArg) :
    Except PyErr ExtractResult :=
  match parseCorner start_Cord with
  | .error e => .error e
  | .ok startRC =>
    match parseCorner end_Cord with
    | .error e => .error e
    | .ok endRC =>
      match startRC, endRC with
      | some rcS, some rcE =>
        let rowPair :=
          if rcE.1 < rcS.1 then (rcE.1, rcS.1) else (rcS.1, rcE.1)
        let colPair :=
          if rcE.2 < rcS.2 then (rcE.2, rcS.2) else (rcS.2, rcE.2)
        let row_start := rowPair.1
        let row_end := rowPair.2
        let col_start := colPair.1
        let col_end := colPair.2
        let values_extracted :=
          (intRange row_start row_end).map
            (fun r => (intRange col_start (col_end + 1)).map
              (fun c => cellValueAt sheet r c))
        if row_start = row_end ∨ col_start = col_end then
          .ok (.arr1 values_extracted.flatten)
        else .ok (.arr2 values_extracted)
      | _, _ => .error .unboundLocal

/-! ## Scan characterization lemmas -/

/-- Equal-bucket pairs one target contributes: the retained cells passing
the equality predicate, in row-major order. -/
def innerEq (skip eqP : PyVal → Bool) (cells : List Cell) :
    List (String × PyVal) :=
  cells.filterMap (fun c =>
    match c.value with
    | some v => if ¬ skip v ∧ eqP v then some (c.coord, v) else none
    | none => none)

/-- Equal-bucket pairs of a whole scan, in target-major, row-major order
(targets whose preparation fails contribute nothing; the scan aborts
there anyway). -/
def eqHitList (P : CaseParams) (targets : List PyVal) (cells : List Cell) :
    List (String × PyVal) :=
  targets.flatMap (fun t =>
    match P.prep t with
    | .ok a => innerEq P.skip (P.eqP a) cells
    | .error _ => [])

theorem innerEq_nil (skip eqP : PyVal → Bool) : innerEq skip eqP [] = [] := rfl

theorem innerScan_append (firstHit : Bool) (skip eqP : PyVal → Bool)
    (simP : PyVal → Bool → Bool) (l1 l2 : List Cell)
    (eqB simB : List (String × PyVal)) :
    innerScan firstHit skip eqP simP (l1 ++ l2) eqB simB =
      match innerScan firstHit skip eqP simP l1 eqB simB with
      | .hit c v => .hit c v
      | .buckets eqB2 simB2 =>
          innerScan firstHit skip eqP simP l2 eqB2 simB2 := by
  induction l1 generalizing eqB simB with
  | nil => simp [innerScan]
  | cons c rest ih =>
    cases hv : c.value with
    | none => simp [innerScan, hv, ih]
    | some v =>
      by_cases hs : skip v
      · simp [innerScan, hv, hs, ih]
      · by_cases he : eqP v
        · cases firstHit with
          | true => simp [innerScan, hv, hs, he]
          | false => simp [innerScan, hv, hs, he, ih]
        · simp [innerScan, hv, hs, he, ih]

theorem innerScan_false_spec (skip eqP : PyVal → Bool)
    (simP : PyVal → Bool → Bool) (cells : List Cell)
    (eqB simB : List (String × PyVal)) :
    ∃ simB2, innerScan false skip eqP simP cells eqB simB =
      .buckets (eqB ++ innerEq skip eqP cells) simB2 := by
  induction cells generalizing eqB simB with
  | nil => exact ⟨simB, by simp [innerScan, innerEq]⟩
  | cons c rest ih =>
    cases hv : c.value with
    | none =>
      obtain ⟨s2, hs2⟩ := ih eqB simB
      exact ⟨s2, by simp [innerScan, hv, innerEq, hs2]⟩
    | some v =>
      by_cases hs : skip v
      · obtain ⟨s2, hs2⟩ := ih eqB simB
        exact ⟨s2, by simp [innerScan, hv, hs, innerEq, hs2]⟩
      · by_cases he : eqP v
        · obtain ⟨s2, hs2⟩ :=
            ih (eqB ++ [(c.coord, v)])
              (if simP v true then simB ++ [(c.coord, v)] else simB)
          refine ⟨s2, ?_⟩
          simp [innerScan, hv, hs, he, innerEq, hs2]
        · obtain ⟨s2, hs2⟩ :=
            ih eqB (if simP v false then simB ++ [(c.coord, v)] else simB)
          refine ⟨s2, ?_⟩
          simp [innerScan, hv, hs, he, innerEq, hs2]

theorem innerScan_true_nohit (skip eqP : PyVal → Bool)
    (simP : PyVal → Bool → Bool) (cells : List Cell)
    (eqB simB : List (String × PyVal))
    (h : innerEq skip eqP cells = []) :
    ∃ simB2, innerScan true skip eqP simP cells eqB simB =
      .buckets eqB simB2 := by
  induction cells generalizing simB with
  | nil => exact ⟨simB, by simp [innerScan]⟩
  | cons c rest ih =>
    cases hv : c.value with
    | none =>
      have h2 : innerEq skip eqP rest = [] := by
        simpa [innerEq, hv] using h
      obtain ⟨s2, hs2⟩ := ih simB h2
      exact ⟨s2, by simp [innerScan, hv, hs2]⟩
    | some v =>
      by_cases hs : skip v
      · have h2 : innerEq skip eqP rest = [] := by
          simpa [innerEq, hv, hs] using h
        obtain ⟨s2, hs2⟩ := ih simB h2
        exact ⟨s2, by simp [innerScan, hv, hs, hs2]⟩
      · by_cases he : eqP v
        · exfalso
          have : innerEq skip eqP (c :: rest) ≠ [] := by
            simp [innerEq, hv, hs, he]
          exact this h
        · have h2 : innerEq skip eqP rest = [] := by
            simpa [innerEq, hv, hs, he] using h
          obtain ⟨s2, hs2⟩ :=
            ih (if simP v false then simB ++ [(c.coord, v)] else simB) h2
          exact ⟨s2, by simp [innerScan, hv, hs, he, hs2]⟩

theorem innerScan_true_hit (skip eqP : PyVal → Bool)
    (simP : PyVal → Bool → Bool) (cs1 cs2 : List Cell) (c : Cell)
    (v : PyVal) (eqB simB : List (String × PyVal))
    (hnohit : innerEq skip eqP cs1 = [])
    (hv : c.value = some v) (hs : skip v = false) (he : eqP v = true) :
    innerScan true skip eqP simP (cs1 ++ c :: cs2) eqB simB =
      .hit c.coord v := by
  obtain ⟨s2, hs2⟩ := innerScan_true_nohit skip eqP simP cs1 eqB simB hnohit
  rw [innerScan_append, hs2]
  simp [innerScan, hv, hs, he]

theorem outerScan_append (P : CaseParams) (firstHit : Bool)
    (ts1 ts2 : List PyVal) (cells : List Cell)
    (eqB simB : List (String × PyVal)) :
    outerScan P firstHit (ts1 ++ ts2) cells eqB simB =
      match outerScan P firstHit ts1 cells eqB simB with
      | .error e => .error e
      | .ok (.hit c v) => .ok (.hit c v)
      | .ok (.buckets eqB2 simB2) =>
          outerScan P firstHit ts2 cells eqB2 simB2 := by
  induction ts1 generalizing eqB simB with
  | nil => simp [outerScan]
  | cons t rest ih =>
    cases hp : P.prep t with
    | error e => simp [outerScan, hp]
    | ok a =>
      cases hscan : innerScan firstHit P.skip (P.eqP a) (P.simP a) cells eqB simB with
      | hit c v => simp [outerScan, hp, hscan]
      | buckets e2 s2 => simp [outerScan, hp, hscan, ih]

theorem outerScan_false_spec (P : CaseParams) (targets : List PyVal)
    (cells : List Cell) (eqB simB : List (String × PyVal))
    (hprep : ∀ t ∈ targets, (P.prep t).isOk) :
    ∃ simB2, outerScan P false targets cells eqB simB =
      .ok (.buckets (eqB ++ eqHitList P targets cells) simB2) := by
  induction targets generalizing eqB simB with
  | nil => exact ⟨simB, by simp [outerScan, eqHitList]⟩
  | cons t rest ih =>
    cases hp : P.prep t with
    | error e =>
      exfalso
      have := hprep t (by simp)
      rw [hp] at this
      simp [Except.isOk, Except.toBool] at this
    | ok a =>
      obtain ⟨s1, hs1⟩ := innerScan_false_spec P.skip (P.eqP a) (P.simP a) cells eqB simB
      obtain ⟨s2, hs2⟩ :=
        ih (eqB ++ innerEq P.skip (P.eqP a) cells) s1
          (fun u hu => hprep u (by simp [hu]))
      refine ⟨s2, ?_⟩
      simp only [outerScan, hp, hs1, hs2, eqHitList, List.flatMap_cons]
      simp [eqHitList, List.append_assoc]

theorem outerScan_true_nohit (P : CaseParams) (targets : List PyVal)
    (cells : List Cell) (eqB simB : List (String × PyVal))
    (hprep : ∀ t ∈ targets, (P.prep t).isOk)
    (hnohit : eqHitList P targets cells = []) :
    ∃ simB2, outerScan P true targets cells eqB simB =
      .ok (.buckets eqB simB2) := by
  induction targets generalizing simB with
  | nil => exact ⟨simB, by simp [outerScan]⟩
  | cons t rest ih =>
    cases hp : P.prep t with
    | error e =>
      exfalso
      have := hprep t (by simp)
      rw [hp] at this
      simp [Except.isOk, Except.toBool] at this
    | ok a =>
      have hsplit : innerEq P.skip (P.eqP a) cells = [] ∧
          eqHitList P rest cells = [] := by
        have h2 := hnohit
        simp only [eqHitList, List.flatMap_cons, hp] at h2
        rw [List.append_eq_nil] at h2
        exact ⟨h2.1, h2.2⟩
      obtain ⟨s1, hs1⟩ :=
        innerScan_true_nohit P.skip (P.eqP a) (P.simP a) cells eqB simB hsplit.1
      obtain ⟨s2, hs2⟩ := ih s1 (fun u hu => hprep u (by simp [hu])) hsplit.2
      exact ⟨s2, by simp [outerScan, hp, hs1, hs2]⟩

theorem outerScan_true_hit (P : CaseParams) (ts1 ts2 : List PyVal)
    (t : PyVal) (a : PyVal × ℕ) (cs1 cs2 : List Cell) (c : Cell) (v : PyVal)
    (hprep1 : ∀ u ∈ ts1, (P.prep u).isOk)
    (hnohit1 : eqHitList P ts1 (cs1 ++ c :: cs2) = [])
    (hprept : P.prep t = .ok a)
    (hnohitc : innerEq P.skip (P.eqP a) cs1 = [])
    (hv : c.value = some v) (hs : P.skip v = false) (he : P.eqP a v = true) :
    outerScan P true (ts1 ++ t :: ts2) (cs1 ++ c :: cs2) [] [] =
      .ok (.hit c.coord v) := by
  obtain ⟨s1, hs1⟩ :=
    outerScan_true_nohit P ts1 (cs1 ++ c :: cs2) [] [] hprep1 hnohit1
  rw [outerScan_append, hs1]
  have hhit := innerScan_true_hit P.skip (P.eqP a) (P.simP a) cs1 cs2 c v [] s1
    hnohitc hv hs he
  simp [outerScan, hprept, hhit]

theorem outerScan_error_from_prep (P : CaseParams) (targets : List PyVal)
    (cells : List Cell) (eqB simB : List (String × PyVal)) (e : PyErr)
    (h : outerScan P true targets cells eqB simB = .error e ∨
      outerScan P false targets cells eqB simB = .error e) :
    ∃ t ∈ targets, P.prep t = .error e := by
  induction targets generalizing eqB simB with
  | nil =>
    rcases h with h | h <;> simp [outerScan] at h
  | cons t rest ih =>
    cases hp : P.prep t with
    | error e2 =>
      rcases h with h | h <;> simp only [outerScan, hp] at h <;>
        exact ⟨t, by simp, hp.trans (congrArg Except.error (Except.error.inj h))⟩
    | ok a =>
      rcases h with h | h <;> simp only [outerScan, hp] at h
      · cases hscan : innerScan true P.skip (P.eqP a) (P.simP a) cells eqB simB with
        | hit c v => rw [hscan] at h; simp at h
        | buckets e2 s2 =>
          rw [hscan] at h
          obtain ⟨u, hu, hu2⟩ := ih e2 s2 (Or.inl h)
          exact ⟨u, by simp [hu], hu2⟩
      · cases hscan : innerScan false P.skip (P.eqP a) (P.simP a) cells eqB simB with
        | hit c v => rw [hscan] at h; simp at h
        | buckets e2 s2 =>
          rw [hscan] at h
          obtain ⟨u, hu, hu2⟩ := ih e2 s2 (Or.inr h)
          exact ⟨u, by simp [hu], hu2⟩

theorem applyShape_error_iff (k : Kind) (av : Bool)
    (r : Except PyErr LoopRes) (e : PyErr) :
    applyShape k av r = .error e ↔ r = .error e := by
  cases r with
  | error e2 => simp [applyShape]
  | ok l => cases l <;> simp [applyShape]

theorem count_sig_error (s : String) (e : PyErr)
    (h : count_significant_digits s = .error e) : e = .valueError := by
  rw [count_significant_digits] at h
  cases hp : parseDecimal s with
  | none =>
    rw [hp] at h
    exact (Except.error.inj h).symm
  | some d =>
    rw [hp] at h
    cases h

theorem paramsOf_prep_error (k : Kind) (th : ℚ) (t : PyVal) (e : PyErr)
    (h : (paramsOf k th).prep t = .error e) : e = .valueError := by
  cases k with
  | strK => simp [paramsOf, strParams] at h
  | dateK => simp [paramsOf, dateParams] at h
  | timeK => simp [paramsOf, timeParams] at h
  | numK =>
    simp only [paramsOf, numParams] at h
    cases hc : count_significant_digits (pyStr t) with
    | error e2 =>
      rw [hc] at h
      simp [Except.map] at h
      exact h ▸ count_sig_error (pyStr t) e2 hc
    | ok n =>
      rw [hc] at h
      simp [Except.map] at h

/-- Dispatch normal form of `search_excl_val` on a homogeneous non-empty
target list: the branch of the first target's kind scans the flattened
sheet and shapes the outcome. -/
theorem search_dispatch (sheet : Sheet) (t0 : PyVal) (ts : List PyVal)
    (th : ℚ) (fh av : Bool)
    (hhom : (t0 :: ts).all (fun x => isinstanceB x (pyType t0))) :
    search_excl_val sheet (t0 :: ts) th fh av =
      applyShape (dispatchKind t0) av
        (outerScan (paramsOf (dispatchKind t0) th) fh (t0 :: ts)
          (sheetCells sheet) [] []) := by
  have hnot : ¬ ¬ ((t0 :: ts).all (fun x => isinstanceB x (pyType t0)) = true) :=
    not_not_intro hhom
  cases t0 <;>
    · simp only [search_excl_val]
      rw [if_neg hnot]
      simp [dispatchKind, paramsOf, pyType, isNumber]

/-- C9: calling `search_excl_val` with an empty target sequence raises an
(untyped) `IndexError` from the index expression `search_targets[0]`,
whatever the sheet, threshold and flags — the grid is never read and no
typed error is produced. -/
theorem C9_empty_targets_indexError (sheet : Sheet) (th : ℚ) (fh av : Bool) :
    search_excl_val sheet [] th fh av = .error .indexError := rfl

/-- C5 counterexample: the all-number target set `[1, 1.5]` (an `int` and
a `float`) is NOT accepted — `search_excl_val` raises `TypeError`, because
the homogeneity check compares against `type(search_targets[0])`, which is
`int`, and `1.5` is not an `int` instance. -/
theorem C5_mixed_int_float_rejected :
    search_excl_val [] [PyVal.int 1, PyVal.float (3 / 2)] (4 / 5) true false =
      .error .typeError := by decide

/-- C5 (amended): `search_excl_val` raises a `TypeError` if and only if
some target is not an instance of the Python type of the FIRST target
(so `["a", 1]` is rejected before the grid is touched — the result does
not depend on the sheet — but `[1, 1.5]` is rejected too, since `1.5` is
not an `int` instance). -/
theorem C5_typeError_iff_inhomogeneous (sheet : Sheet) (t0 : PyVal)
    (ts : List PyVal) (th : ℚ) (fh av : Bool) :
    search_excl_val sheet (t0 :: ts) th fh av = .error .typeError ↔
      ¬ ((t0 :: ts).all (fun x => isinstanceB x (pyType t0)) = true) := by
  constructor
  · intro h
    intro hhom
    rw [search_dispatch sheet t0 ts th fh av hhom] at h
    rw [applyShape_error_iff] at h
    obtain ⟨t, _, hterr⟩ := by
      apply outerScan_error_from_prep (paramsOf (dispatchKind t0) th)
        (t0 :: ts) (sheetCells sheet) [] [] PyErr.typeError
      cases fh
      · exact Or.inr h
      · exact Or.inl h
    have := paramsOf_prep_error (dispatchKind t0) th t PyErr.typeError hterr
    simp at this
  · intro h
    simp [search_excl_val, h]

/-- C5 witness: at the concrete mixed set `["a", 1]`, the amended theorem
yields the `TypeError` (here discharging the right-to-left direction with
the concrete inhomogeneity). -/
theorem C5_witness :
    search_excl_val [] [PyVal.str "a", PyVal.int 1] (4 / 5) true false =
      .error .typeError :=
  (C5_typeError_iff_inhomogeneous [] (PyVal.str "a") [PyVal.int 1]
    (4 / 5) true false).mpr (by decide)

/-- C2: `count_significant_digits` on the three spec examples.  The code
returns 4 for `"1.230"` as the claim states, but also returns 4 for
`"100"` (the normalized `Decimal` renders as `1E+2` and the characters
`E` and `+` are counted) and 4 for `"0.001"` (the leading zeros are never
stripped from the non-exponent rendering), where the claim states 3 and 1. -/
theorem C2_count_significant_digits_eval :
    count_significant_digits "1.230" = .ok 4 ∧
      count_significant_digits "100" = .ok 4 ∧
      count_significant_digits "0.001" = .ok 4 := by
  refine ⟨by decide, by decide, by decide⟩

/-- C1 counterexample: with a single `int` target hitting one cell and
`return_first_hit=False, return_all_vals=False`, the numeric branch
returns only the bare coordinate list (line 276), not the paired
coordinate/value collections the string, date and time branches return —
the claimed uniform shape fails. -/
theorem C1_number_branch_not_paired :
    search_excl_val [[⟨"A1", some (PyVal.int 1)⟩]] [PyVal.int 1]
        (4 / 5) false false = .ok (.coords ["A1"]) ∧
      search_excl_val [[⟨"A1", some (PyVal.int 1)⟩]] [PyVal.int 1]
        (4 / 5) false false ≠
        .ok (.dict ["A1"] [PyVal.int 1]) :=
  ⟨by with_unfolding_all decide, by with_unfolding_all decide⟩

/-- C1 (amended): with `return_first_hit=False` and `return_all_vals=False`
and a non-empty equal bucket at scan end, the string, date/datetime and
time branches return the equal bucket as the paired ordered
coordinate/value collections, but the numeric branch returns only the
ordered coordinate list of the equal bucket. -/
theorem C1_equal_bucket_return (sheet : Sheet) (t0 : PyVal) (ts : List PyVal)
    (th : ℚ)
    (hhom : (t0 :: ts).all (fun x => isinstanceB x (pyType t0)))
    (hprep : ∀ t ∈ t0 :: ts, ((paramsOf (dispatchKind t0) th).prep t).isOk)
    (hne : eqHitList (paramsOf (dispatchKind t0) th) (t0 :: ts)
      (sheetCells sheet) ≠ []) :
    search_excl_val sheet (t0 :: ts) th false false =
      .ok (match dispatchKind t0 with
        | .numK =>
          .coords ((eqHitList (paramsOf (dispatchKind t0) th) (t0 :: ts)
            (sheetCells sheet)).map Prod.fst)
        | _ =>
          .dict ((eqHitList (paramsOf (dispatchKind t0) th) (t0 :: ts)
              (sheetCells sheet)).map Prod.fst)
            ((eqHitList (paramsOf (dispatchKind t0) th) (t0 :: ts)
              (sheetCells sheet)).map Prod.snd)) := by
  rw [search_dispatch sheet t0 ts th false false hhom]
  obtain ⟨s2, hs2⟩ := outerScan_false_spec (paramsOf (dispatchKind t0) th)
    (t0 :: ts) (sheetCells sheet) [] [] hprep
  rw [hs2]
  cases hk : dispatchKind t0 <;> rw [hk] at hne <;>
    simp [applyShape, shapeBuckets, hne]

/-- C1 witness: a concrete string-kind search with one equal hit returns
the paired dict of the equal bucket. -/
theorem C1_witness :
    search_excl_val [[⟨"A1", some (PyVal.str "x")⟩]] [PyVal.str "x"]
        (4 / 5) false false = .ok (.dict ["A1"] [PyVal.str "x"]) := by
  have h := C1_equal_bucket_return [[⟨"A1", some (PyVal.str "x")⟩]]
    (PyVal.str "x") [] (4 / 5) (by decide) (by decide)
    (by with_unfolding_all decide)
  exact h.trans (by with_unfolding_all decide)

/-- C6 counterexample: a time-of-day search with no exact hit,
`return_first_hit=False, return_all_vals=False`, falls off the end of the
time branch and returns Python `None`, not the `(None, None)` sentinel. -/
theorem C6_time_branch_returns_bare_none :
    search_excl_val [[⟨"A1", some (PyVal.time 0)⟩]] [PyVal.time (1 / 2)]
        (4 / 5) false false = .ok .pyNone ∧
      SearchResult.pyNone ≠ SearchResult.nonePair :=
  ⟨by with_unfolding_all decide, by decide⟩

/-- C6 (amended): with `return_first_hit=False, return_all_vals=False`
and no equal-bucket hit at scan end, the string, numeric and
date/datetime branches return the `(None, None)` sentinel, but the
time-of-day branch falls off the end of the function and returns bare
Python `None`. -/
theorem C6_no_hit_return (sheet : Sheet) (t0 : PyVal) (ts : List PyVal)
    (th : ℚ)
    (hhom : (t0 :: ts).all (fun x => isinstanceB x (pyType t0)))
    (hprep : ∀ t ∈ t0 :: ts, ((paramsOf (dispatchKind t0) th).prep t).isOk)
    (hempty : eqHitList (paramsOf (dispatchKind t0) th) (t0 :: ts)
      (sheetCells sheet) = []) :
    search_excl_val sheet (t0 :: ts) th false false =
      .ok (if dispatchKind t0 = .timeK then .pyNone else .nonePair) := by
  rw [search_dispatch sheet t0 ts th false false hhom]
  obtain ⟨s2, hs2⟩ := outerScan_false_spec (paramsOf (dispatchKind t0) th)
    (t0 :: ts) (sheetCells sheet) [] [] hprep
  rw [hs2, hempty]
  cases hk : dispatchKind t0 <;> simp [applyShape, shapeBuckets]

/-- C6 witness: a concrete string-kind search with no hit returns the
`(None, None)` sentinel. -/
theorem C6_witness :
    search_excl_val [[⟨"A1", some (PyVal.str "y")⟩]] [PyVal.str "x"]
        (999 / 1000) false false = .ok .nonePair := by
  have h := C6_no_hit_return [[⟨"A1", some (PyVal.str "y")⟩]]
    (PyVal.str "x") [] (999 / 1000) (by decide) (by decide)
    (by with_unfolding_all decide)
  exact h.trans (by with_unfolding_all decide)

/-- Membership in the equal-bucket list of one target implies the
equality predicate held on the value. -/
theorem innerEq_mem_eqP (skip eqP : PyVal → Bool) (cells : List Cell)
    (p : String × PyVal) (h : p ∈ innerEq skip eqP cells) :
    eqP p.2 = true := by
  simp only [innerEq, List.mem_filterMap] at h
  obtain ⟨c0, _, hc⟩ := h
  cases hv : c0.value with
  | none => rw [hv] at hc; cases hc
  | some v =>
    rw [hv] at hc
    have hc2 : (if ¬ skip v = true ∧ eqP v = true then
        some (c0.coord, v) else none) = some p := hc
    by_cases hcond : ¬ skip v = true ∧ eqP v = true
    · rw [if_pos hcond] at hc2
      cases hc2
      exact hcond.2
    · rw [if_neg hcond] at hc2
      cases hc2

/-- C4: searching for the single numeric target `3.14`, the rounding
precision is the significant-digit count of `str(3.14) = "3.14"`, namely
3 (the preparation step of the numeric branch); a cell holding `3.14`
satisfies the branch's equal-bucket test while a cell holding `3.1` never
does (for any sheet and coordinate, `3.1` is never in the equal bucket);
end to end, a sheet holding `3.14` and `3.1` yields only the `3.14`
cell.  Floats are modelled as exact decimals. -/
theorem C4_numeric_tolerance :
    count_significant_digits (pyStr (PyVal.float (157 / 50))) = .ok 3 ∧
      numParams.prep (PyVal.float (157 / 50)) =
        .ok (PyVal.float (157 / 50), 3) ∧
      numParams.eqP (PyVal.float (157 / 50), 3) (PyVal.float (157 / 50)) =
        true ∧
      numParams.eqP (PyVal.float (157 / 50), 3) (PyVal.float (31 / 10)) =
        false ∧
      (∀ (cells : List Cell) (coord : String),
        (coord, PyVal.float (31 / 10)) ∉
          eqHitList numParams [PyVal.float (157 / 50)] cells) ∧
      search_excl_val
          [[⟨"A1", some (PyVal.float (157 / 50))⟩,
            ⟨"B1", some (PyVal.float (31 / 10))⟩]]
          [PyVal.float (157 / 50)] (4 / 5) false false =
        .ok (.coords ["A1"]) := by
  refine ⟨by with_unfolding_all decide, by with_unfolding_all decide,
    by with_unfolding_all decide, by with_unfolding_all decide, ?_,
    by with_unfolding_all decide⟩
  intro cells coord hmem
  have hprep : numParams.prep (PyVal.float (157 / 50)) =
      .ok (PyVal.float (157 / 50), 3) := by with_unfolding_all decide
  rw [eqHitList, List.flatMap_cons, List.flatMap_nil, List.append_nil,
    hprep] at hmem
  have h2 : numParams.eqP (PyVal.float (157 / 50), 3)
      (PyVal.float (31 / 10)) = true :=
    innerEq_mem_eqP numParams.skip
      (numParams.eqP (PyVal.float (157 / 50), 3)) cells
      (coord, PyVal.float (31 / 10)) hmem
  have heq : numParams.eqP (PyVal.float (157 / 50), 3)
      (PyVal.float (31 / 10)) = false := by with_unfolding_all decide
  rw [heq] at h2
  cases h2

theorem innerEq_append (skip eqP : PyVal → Bool) (l1 l2 : List Cell) :
    innerEq skip eqP (l1 ++ l2) =
      innerEq skip eqP l1 ++ innerEq skip eqP l2 := by
  simp [innerEq, List.filterMap_append]

/-- If a scan of a longer cell list produced no equal hits, neither does
the scan of a prefix. -/
theorem eqHitList_prefix_nil (P : CaseParams) (ts : List PyVal)
    (l1 l2 : List Cell) (h : eqHitList P ts (l1 ++ l2) = []) :
    eqHitList P ts l1 = [] := by
  induction ts with
  | nil => rfl
  | cons t rest ih =>
    rw [eqHitList, List.flatMap_cons] at h ⊢
    rw [List.append_eq_nil] at h
    have h1 := h.1
    have h2 := ih h.2
    rw [eqHitList] at h2
    rw [h2, List.append_nil]
    cases hp : P.prep t with
    | error e => rfl
    | ok a =>
      rw [hp] at h1
      have h1b : innerEq P.skip (P.eqP a) (l1 ++ l2) = [] := h1
      rw [innerEq_append] at h1b
      show innerEq P.skip (P.eqP a) l1 = []
      exact (List.append_eq_nil.mp h1b).1

/-- Every value is an instance of its own type. -/
theorem isinstance_self (v : PyVal) : isinstanceB v (pyType v) = true := by
  cases v <;> simp [isinstanceB, pyType]

/-- First-hit behaviour of `search_excl_val` at search level: if the
targets split as `ts1 ++ t :: ts2` and the row-major cells split as
`cs1 ++ c :: cs2`, the earlier targets prepare successfully and produce no
equal hit anywhere, target `t` prepares to `a` and has no equal hit before
`c`, and `c` holds a retained value `v` passing the equality test, then
the search returns `(c.coord, v)` immediately. -/
theorem search_hit_aux (sheet : Sheet) (t0 : PyVal) (ts : List PyVal)
    (th : ℚ) (av : Bool) (ts1 ts2 : List PyVal) (t : PyVal) (a : PyVal × ℕ)
    (cs1 cs2 : List Cell) (c : Cell) (v : PyVal)
    (hhom : (t0 :: ts).all (fun x => isinstanceB x (pyType t0)))
    (hsplitT : t0 :: ts = ts1 ++ t :: ts2)
    (hsplitC : sheetCells sheet = cs1 ++ c :: cs2)
    (hprep1 : ∀ u ∈ ts1, ((paramsOf (dispatchKind t0) th).prep u).isOk)
    (hprept : (paramsOf (dispatchKind t0) th).prep t = .ok a)
    (hnohit1 : eqHitList (paramsOf (dispatchKind t0) th) ts1
      (sheetCells sheet) = [])
    (hnohitc : innerEq (paramsOf (dispatchKind t0) th).skip
      ((paramsOf (dispatchKind t0) th).eqP a) cs1 = [])
    (hv : c.value = some v)
    (hs : (paramsOf (dispatchKind t0) th).skip v = false)
    (he : (paramsOf (dispatchKind t0) th).eqP a v = true) :
    search_excl_val sheet (t0 :: ts) th true av = .ok (.hit c.coord v) := by
  rw [search_dispatch sheet t0 ts th true av hhom]
  rw [hsplitC] at hnohit1
  have hscan := outerScan_true_hit (paramsOf (dispatchKind t0) th) ts1 ts2
    t a cs1 cs2 c v hprep1 hnohit1 hprept hnohitc hv hs he
  rw [hsplitT, hsplitC, hscan]
  rfl

/-- C3: for every dispatch branch, with `return_first_hit=True`, when the
scan has an equal-bucket hit, `search_excl_val` returns the coordinate
and value of the first equal cell in target-major, row-major order
(hypotheses locate that first hit: no equal hit for any earlier target
anywhere, none for the hit target in earlier cells), and it reads nothing
beyond that pair: the same call on the targets truncated after the hit
target and on a sheet truncated after the hit cell returns the same
result. -/
theorem C3_first_hit_short_circuit (sheet : Sheet) (t0 : PyVal)
    (ts : List PyVal) (th : ℚ) (av : Bool) (ts1 ts2 : List PyVal)
    (t : PyVal) (a : PyVal × ℕ) (cs1 cs2 : List Cell) (c : Cell) (v : PyVal)
    (hhom : (t0 :: ts).all (fun x => isinstanceB x (pyType t0)))
    (hsplitT : t0 :: ts = ts1 ++ t :: ts2)
    (hsplitC : sheetCells sheet = cs1 ++ c :: cs2)
    (hprep1 : ∀ u ∈ ts1, ((paramsOf (dispatchKind t0) th).prep u).isOk)
    (hprept : (paramsOf (dispatchKind t0) th).prep t = .ok a)
    (hnohit1 : eqHitList (paramsOf (dispatchKind t0) th) ts1
      (sheetCells sheet) = [])
    (hnohitc : innerEq (paramsOf (dispatchKind t0) th).skip
      ((paramsOf (dispatchKind t0) th).eqP a) cs1 = [])
    (hv : c.value = some v)
    (hs : (paramsOf (dispatchKind t0) th).skip v = false)
    (he : (paramsOf (dispatchKind t0) th).eqP a v = true) :
    search_excl_val sheet (t0 :: ts) th true av = .ok (.hit c.coord v) ∧
      search_excl_val [cs1 ++ [c]] (ts1 ++ [t]) th true av =
        .ok (.hit c.coord v) := by
  refine ⟨search_hit_aux sheet t0 ts th av ts1 ts2 t a cs1 cs2 c v
    hhom hsplitT hsplitC hprep1 hprept hnohit1 hnohitc hv hs he, ?_⟩
  have hcells : sheetCells [cs1 ++ [c]] = cs1 ++ c :: [] := by
    simp [sheetCells]
  have hnohit1T : eqHitList (paramsOf (dispatchKind t0) th) ts1
      (sheetCells [cs1 ++ [c]]) = [] := by
    rw [hcells]
    rw [hsplitC] at hnohit1
    exact eqHitList_prefix_nil (paramsOf (dispatchKind t0) th) ts1
      (cs1 ++ [c]) cs2 (by simpa using hnohit1)
  have hmem : ∀ x ∈ ts1 ++ t :: ts2,
      isinstanceB x (pyType t0) = true := by
    rw [← hsplitT]
    exact List.all_eq_true.mp hhom
  cases ts1 with
  | nil =>
    have ht : t0 = t := by simpa using congrArg List.head? hsplitT
    subst ht
    have hhomT : ([t0] : List PyVal).all
        (fun x => isinstanceB x (pyType t0)) = true := by
      simp [isinstance_self]
    rw [List.nil_append]
    rw [search_dispatch [cs1 ++ [c]] t0 [] th true av hhomT]
    have hscan := outerScan_true_hit (paramsOf (dispatchKind t0) th)
      [] [] t0 a cs1 [] c v (by simp) (by rw [hcells] at hnohit1T; exact hnohit1T)
      hprept hnohitc hv hs he
    simp only [List.nil_append] at hscan
    rw [hcells, hscan]
    rfl
  | cons t0' ts1' =>
    have hcons := List.cons.inj hsplitT
    have ht0 : t0 = t0' := hcons.1
    subst ht0
    have hhomT : (t0 :: (ts1' ++ [t])).all
        (fun x => isinstanceB x (pyType t0)) = true := by
      rw [List.all_eq_true]
      intro x hx
      rcases List.mem_cons.mp hx with h | h
      · subst h; exact isinstance_self x
      · rcases List.mem_append.mp h with h2 | h2
        · exact hmem x
            (List.mem_append.mpr (Or.inl (List.mem_cons_of_mem _ h2)))
        · simp at h2
          subst h2
          exact hmem x (List.mem_append.mpr (Or.inr (by simp)))
    rw [List.cons_append]
    rw [search_dispatch [cs1 ++ [c]] t0 (ts1' ++ [t]) th true av hhomT]
    have hscan := outerScan_true_hit (paramsOf (dispatchKind t0) th)
      (t0 :: ts1') [] t a cs1 [] c v hprep1
      (by rw [hcells] at hnohit1T; exact hnohit1T)
      hprept hnohitc hv hs he
    rw [hcells, ← List.cons_append, hscan]
    rfl

/-- C3 witness: searching `["Total"]` with `return_first_hit=True` in a
two-cell sheet whose first cell is the only "Total" returns that cell's
coordinate and value, and the same call on the sheet truncated at the hit
returns the same pair. -/
theorem C3_witness :
    search_excl_val
        [[⟨"A1", some (PyVal.str "Total")⟩, ⟨"B1", some (PyVal.str "x")⟩]]
        [PyVal.str "Total"] (4 / 5) true false =
      .ok (.hit "A1" (PyVal.str "Total")) ∧
      search_excl_val [[⟨"A1", some (PyVal.str "Total")⟩]]
        [PyVal.str "Total"] (4 / 5) true false =
      .ok (.hit "A1" (PyVal.str "Total")) := by
  have h := C3_first_hit_short_circuit
    [[⟨"A1", some (PyVal.str "Total")⟩, ⟨"B1", some (PyVal.str "x")⟩]]
    (PyVal.str "Total") [] (4 / 5) false [] [] (PyVal.str "Total")
    (PyVal.str "Total", 0) [] [⟨"B1", some (PyVal.str "x")⟩]
    ⟨"A1", some (PyVal.str "Total")⟩ (PyVal.str "Total")
    (by decide) rfl rfl (by simp) rfl rfl rfl rfl (by decide) (by decide)
  exact ⟨h.1, by simpa using h.2⟩

/-- C7 counterexample: on a populated 2×2 sheet, `get_excl_sheet_vals`
with corners `"A1"`, `"B2"` does NOT return the 2×2 array of A1, B1, A2,
B2 — the row loop `range(row_start, row_end)` excludes the end row, so
only row 1 is extracted (a 1×2 array). -/
theorem C7_row_end_exclusive :
    get_excl_sheet_vals
        [[⟨"A1", some (PyVal.int 11)⟩, ⟨"B1", some (PyVal.int 12)⟩],
         [⟨"A2", some (PyVal.int 21)⟩, ⟨"B2", some (PyVal.int 22)⟩]]
        (.s "A1") (.s "B2") =
      .ok (.arr2 [[some (PyVal.int 11), some (PyVal.int 12)]]) ∧
      get_excl_sheet_vals
        [[⟨"A1", some (PyVal.int 11)⟩, ⟨"B1", some (PyVal.int 12)⟩],
         [⟨"A2", some (PyVal.int 21)⟩, ⟨"B2", some (PyVal.int 22)⟩]]
        (.s "A1") (.s "B2") ≠
      .ok (.arr2 [[some (PyVal.int 11), some (PyVal.int 12)],
                  [some (PyVal.int 21), some (PyVal.int 22)]]) :=
  ⟨by decide, by decide⟩

/-- C7 (amended): for every sheet, `get_excl_sheet_vals(sheet, "A1", "B2")`
returns the 1×2 array of the values of A1 and B1 only (rows
`[1, 2)` end-exclusive, columns `[1, 2]` end-inclusive), and passing the
corners reversed (`"B2", "A1"`) is normalized by swapping and returns the
same array. -/
theorem C7_extract_a1_b2 (sheet : Sheet) :
    get_excl_sheet_vals sheet (.s "A1") (.s "B2") =
      .ok (.arr2 [[cellValueAt sheet 1 1, cellValueAt sheet 1 2]]) ∧
      get_excl_sheet_vals sheet (.s "B2") (.s "A1") =
        get_excl_sheet_vals sheet (.s "A1") (.s "B2") :=
  ⟨rfl, rfl⟩

/-- C7 amended-claim witness: the amended theorem instantiated at the
concrete 2×2 sheet. -/
theorem C7_witness :
    get_excl_sheet_vals
        [[⟨"A1", some (PyVal.int 11)⟩, ⟨"B1", some (PyVal.int 12)⟩],
         [⟨"A2", some (PyVal.int 21)⟩, ⟨"B2", some (PyVal.int 22)⟩]]
        (.s "B2") (.s "A1") =
      .ok (.arr2 [[some (PyVal.int 11), some (PyVal.int 12)]]) := by
  have h := C7_extract_a1_b2
    [[⟨"A1", some (PyVal.int 11)⟩, ⟨"B1", some (PyVal.int 12)⟩],
     [⟨"A2", some (PyVal.int 21)⟩, ⟨"B2", some (PyVal.int 22)⟩]]
  rw [h.2, h.1]
  decide

/-- Accumulator characterization of the `is_similar` sequence loop:
it appends exactly the elements meeting the threshold, with their
scores, in encounter order. -/
theorem simLoop_spec (target : String) (th : ℚ) (xs : List String)
    (accS : List String) (accR : List ℚ) :
    simLoop target th xs accS accR =
      (accS ++ xs.filter (fun s => th ≤ ratioQ target s),
        accR ++ (xs.filter (fun s => th ≤ ratioQ target s)).map
          (fun s => ratioQ target s)) := by
  induction xs generalizing accS accR with
  | nil => simp [simLoop]
  | cons s rest ih =>
    by_cases h : th ≤ ratioQ target s <;>
      simp [simLoop, h, ih, List.filter_cons]

set_option maxRecDepth 8000 in
/-- C8 (amended): for every target and every `list` (or `numpy` array) of
strings, `is_similar` with `want_score=True` returns the two parallel
ordered collections of the (stripped) elements whose ratio meets the
threshold and of their scores, in encounter order, and `(None, None)`
when no element qualifies; in particular
`is_similar("apple", ["appel","banana"], 0.75, True)` returns
`(["appel"], [0.8])` with `0.8 ≥ 0.75`.  A `tuple` of strings, however,
is rejected with a `TypeError` by the argument-conversion step, which
accepts only `list`/`ndarray`/`str`/`Number`. -/
theorem C8_sequence_mode_scores :
    (∀ (target : String) (xs : List String) (th : ℚ),
      is_similar target (.list xs) th true =
        .ok (if (xs.map pyStrip).filter
              (fun s => th ≤ ratioQ (pyStrip target) s) = [] then .nonePair
            else .listPair
              ((xs.map pyStrip).filter
                (fun s => th ≤ ratioQ (pyStrip target) s))
              (((xs.map pyStrip).filter
                (fun s => th ≤ ratioQ (pyStrip target) s)).map
                (fun s => ratioQ (pyStrip target) s)))) ∧
      is_similar "apple" (.list ["appel", "banana"]) (3 / 4) true =
        .ok (.listPair ["appel"] [4 / 5]) ∧
      (3 / 4 : ℚ) ≤ ratioQ (pyStrip "apple") (pyStrip "appel") ∧
      (∀ (target : String) (xs : List String) (th : ℚ) (ws : Bool),
        is_similar target (.tuple xs) th ws = .error .typeError) := by
  refine ⟨?_, by with_unfolding_all decide, by with_unfolding_all decide,
    fun target xs th ws => rfl⟩
  intro target xs th
  rw [is_similar]
  simp only [simLoop_spec, List.nil_append]
  by_cases h : (xs.map pyStrip).filter
      (fun s => th ≤ ratioQ (pyStrip target) s) = [] <;>
    simp [h]

/-- C8 counterexample: the same call with a `tuple` instead of a `list`
raises `TypeError` rather than returning the parallel collections. -/
theorem C8_tuple_rejected :
    is_similar "apple" (.tuple ["appel", "banana"]) (3 / 4) true =
      .error .typeError := rfl

/-- C10: if a corner argument of `get_excl_sheet_vals` is a tuple whose
two elements are not both `int` instances (e.g. `("a", 2)` or
`(1.0, 2)`), and the other corner parses without raising, the call fails
with the unbound-local error from the never-assigned row/column variables
at the `row_start > row_end` comparison — not with the `TypeError` the
corner type-check documents, and not with a result.  This holds with the
bad tuple in either corner position and for every sheet. -/
theorem C10_bad_tuple_unbound_local (sheet : Sheet) (a b : PyVal)
    (oc : CoordArg) (orc : Option (ℤ × ℤ))
    (hbad : ¬ (isIntVal a ∧ isIntVal b))
    (hok : parseCorner oc = .ok orc) :
    get_excl_sheet_vals sheet (.pair a b) oc = .error .unboundLocal ∧
      get_excl_sheet_vals sheet oc (.pair a b) =
        .error .unboundLocal := by
  have hpair : parseCorner (.pair a b) = .ok none := by
    simp [parseCorner, hbad]
  constructor
  · rw [get_excl_sheet_vals, hpair, hok]
  · rw [get_excl_sheet_vals, hok, hpair]
    cases orc with
    | none => rfl
    | some rc => rfl

/-- C10 witness: the concrete bad corners `("a", 2)` and `(1.0, 2)`
against the valid corner `"B2"` on a concrete sheet. -/
theorem C10_witness :
    get_excl_sheet_vals [] (.pair (PyVal.str "a") (PyVal.int 2))
        (.s "B2") = .error .unboundLocal ∧
      get_excl_sheet_vals [] (.s "B2")
        (.pair (PyVal.float 1) (PyVal.int 2)) = .error .unboundLocal :=
  ⟨(C10_bad_tuple_unbound_local [] (PyVal.str "a") (PyVal.int 2)
      (.s "B2") (some (2, 2)) (by decide) (by decide)).1,
    (C10_bad_tuple_unbound_local [] (PyVal.float 1) (PyVal.int 2)
      (.s "B2") (some (2, 2)) (by decide) (by with_unfolding_all decide)).2⟩

end ExUtil

